import Mathlib

/-!
# Verification development for the log-section geometric analysis engine

Shallow embedding of the repository's image-analysis pipeline
(`src/server/api/routers/image.ts` and its sibling variants).  Pure numeric
code (scale calibration, moments, second moment of area, section modulus,
height-text parsing, batch orchestration) is translated directly from the
TypeScript source.  Calls into the external OpenCV collaborator
(Otsu threshold, contour extraction, filled contour drawing, raster moments)
are modelled after the collaborator's documented behaviour and the spec's
description of those stages (binarizer, contour selector, mask builder):
contour enclosed area uses the spec-sanctioned pixel-count equivalent and
moments use the binary pixel-count convention of the spec's data model.
Machine floating point is modelled by exact rationals.
-/

/-- Decidable equality of `Except` values, for evaluating the pipeline's
fallible results on concrete inputs. -/
instance {ε α : Type} [DecidableEq ε] [DecidableEq α] : DecidableEq (Except ε α)
  | .error a, .error b =>
    if h : a = b then .isTrue (by rw [h]) else .isFalse (by intro hc; cases hc; exact h rfl)
  | .error _, .ok _ => .isFalse (by intro hc; cases hc)
  | .ok _, .error _ => .isFalse (by intro hc; cases hc)
  | .ok a, .ok b =>
    if h : a = b then .isTrue (by rw [h]) else .isFalse (by intro hc; cases hc; exact h rfl)

namespace LogSection

/-- Grayscale raster: row-major list of rows of 8-bit intensities
(`cv.cvtColor(src, gray, cv.COLOR_RGBA2GRAY)` output). -/
abbrev Gray := List (List ℕ)

/-- Binary raster: row-major list of rows of on/off pixels (a `cv.Mat` of
`CV_8UC1` holding 0/255, represented by `Bool`). -/
abbrev Mask := List (List Bool)

/-- `mat.rows`. -/
def rowsOf {α : Type} (m : List (List α)) : ℕ := m.length

/-- `mat.cols` (length of the first row; all images are rectangular). -/
def colsOf {α : Type} (m : List (List α)) : ℕ := (m.headD []).length

/-- Intensity of pixel `(x, y)`; 0 outside the raster. -/
def pxAt (g : Gray) (y x : ℕ) : ℕ := (g.getD y []).getD x 0

/-- `mask.ucharPtr(y, x)[0] === 255` test; `false` outside the raster. -/
def onAt (m : Mask) (y x : ℕ) : Bool := (m.getD y []).getD x false

/-! ## Binarizer: `cv.threshold(gray, binary, 0, 255, THRESH_BINARY + THRESH_OTSU)`
followed by `cv.bitwise_not(binary, binary)`.

The Otsu threshold (external collaborator) is modelled per the spec's
description: the global threshold maximising the inter-class variance between
the two intensity classes.  For classes `{p ≤ t}` and `{p > t}` with counts
`n0, n1` and intensity sums `S0, S1`, the between-class variance is
proportional to `(S0*n1 - S1*n0)^2 / (n0*n1)`; thresholds producing an empty
class are skipped (variance 0), and the first strict maximiser wins, scanning
`t = 0..255` upward, matching the collaborator's loop. -/

/-- `(n0, S0, n1, S1)` for the split of `g` into intensities `≤ t` and `> t`. -/
def statsLE (g : Gray) (t : ℕ) : ℕ × ℕ × ℕ × ℕ :=
  g.foldl (fun acc row => row.foldl (fun s p =>
    if p ≤ t then (s.1 + 1, s.2.1 + p, s.2.2.1, s.2.2.2)
    else (s.1, s.2.1, s.2.2.1 + 1, s.2.2.2 + p)) acc) (0, 0, 0, 0)

/-- Numerator of the between-class variance at threshold `t`. -/
def sigmaNum (g : Gray) (t : ℕ) : ℤ :=
  let s := statsLE g t
  ((s.2.1 : ℤ) * s.2.2.1 - (s.2.2.2 : ℤ) * s.1) ^ 2

/-- Denominator of the between-class variance at threshold `t`. -/
def sigmaDen (g : Gray) (t : ℕ) : ℕ :=
  let s := statsLE g t
  s.1 * s.2.2.1

/-- Is the variance `n1 / d1` strictly larger than `n2 / d2`?
(Cross-multiplied comparison; a zero denominator means an empty class,
whose variance counts as 0.) -/
def sigmaGTb (n1 : ℤ) (d1 : ℕ) (n2 : ℤ) (d2 : ℕ) : Bool :=
  if d1 = 0 then false
  else if d2 = 0 then decide (0 < n1)
  else decide (n2 * (d1 : ℤ) < n1 * (d2 : ℤ))

/-- Insert into an ascending list. -/
def insertAsc (v : ℕ) : List ℕ → List ℕ
  | [] => [v]
  | a :: rest => if v ≤ a then v :: a :: rest else a :: insertAsc v rest

/-- Sort ascending. -/
def sortAsc (l : List ℕ) : List ℕ := l.foldr insertAsc []

/-- Candidate thresholds: the distinct intensities of the image, ascending.
The split `{p ≤ t} / {p > t}`, hence the between-class variance, is constant
while `t` ranges between two consecutive distinct intensities, so the first
strict maximiser over the candidates is the first strict maximiser of the
full `t = 0..255` scan. -/
def candidates (g : Gray) : List ℕ := sortAsc (g.flatten.dedup)

/-- Otsu automatic threshold: first strict maximiser of the between-class
variance, scanning thresholds upward (maximum and value both start at 0,
as in the collaborator's loop). -/
def otsu (g : Gray) : ℕ :=
  ((candidates g).foldl (fun acc t =>
    if sigmaGTb (sigmaNum g t) (sigmaDen g t) acc.2.1 acc.2.2 then
      (t, sigmaNum g t, sigmaDen g t)
    else acc) ((0 : ℕ), (0 : ℤ), (0 : ℕ))).1

/-- `cv.threshold(gray, binary, 0, 255, cv.THRESH_BINARY + cv.THRESH_OTSU)`:
destination pixel is on iff the source intensity exceeds the Otsu threshold. -/
def thresholdOtsu (g : Gray) : Mask :=
  g.map (fun row => row.map (fun p => decide (otsu g < p)))

/-- `cv.bitwise_not(binary, binary)`. -/
def bitwiseNot (m : Mask) : Mask := m.map (fun row => row.map (fun b => !b))

/-- The repository's binarization stage: Otsu threshold then unconditional
inversion, so a pixel ends up on iff its intensity is `≤` the threshold. -/
def binarize (g : Gray) : Mask := bitwiseNot (thresholdOtsu g)

/-- Pointwise intensity inversion of a raster (the "intensity-inverted image"
of the spec's polarity discussion; not a repository function). -/
def invertGray (g : Gray) : Gray := g.map (fun row => row.map (fun p => 255 - p))

/-! ## Contour selector: `cv.findContours(..., RETR_EXTERNAL, ...)`

Modelled as the list of 4-connected components of on-pixels, in row-major
order of their first pixel (the spec's deterministic scan order).  A
component stands for the region its external contour encloses; per the spec
the enclosed area may be taken as the pixel-count equivalent of the shoelace
value.  The modelled shapes are solid, so the enclosed region coincides with
the component. -/

/-- On-pixels of one row as `(x, y)` pairs, starting at column `x`. -/
def onRowAux (y : ℕ) : ℕ → List Bool → List (ℕ × ℕ)
  | _, [] => []
  | x, b :: bs => (if b then [(x, y)] else []) ++ onRowAux y (x + 1) bs

/-- On-pixels of the rows of `m`, the first row having index `y`. -/
def onListAux : ℕ → Mask → List (ℕ × ℕ)
  | _, [] => []
  | y, r :: rs => onRowAux y 0 r ++ onListAux (y + 1) rs

/-- All on-pixels of a mask, `(x, y)`, in row-major scan order. -/
def onList (m : Mask) : List (ℕ × ℕ) := onListAux 0 m

/-- 4-neighbourhood adjacency of pixel coordinates. -/
def adj4 (p q : ℕ × ℕ) : Bool :=
  decide ((p.1 = q.1 ∧ (p.2 = q.2 + 1 ∨ q.2 = p.2 + 1)) ∨
          (p.2 = q.2 ∧ (p.1 = q.1 + 1 ∨ q.1 = p.1 + 1)))

/-- Grow a component inside the pixel set `all` until no adjacent pixel is
left to add; the fuel bounds the number of growth rounds. -/
def growComp (all : List (ℕ × ℕ)) : ℕ → List (ℕ × ℕ) → List (ℕ × ℕ)
  | 0, comp => comp
  | fuel + 1, comp =>
    let fresh := all.filter (fun q => !comp.contains q && comp.any (fun p => adj4 p q))
    if fresh.isEmpty then comp else growComp all fuel (comp ++ fresh)

/-- Connected components of the pixel set, seeded in scan order. -/
def findComps (all : List (ℕ × ℕ)) : List (List (ℕ × ℕ)) :=
  all.foldl (fun acc p =>
    if acc.any (fun c => c.contains p) then acc
    else acc ++ [growComp all all.length [p]]) []

/-- `cv.contourArea`, modelled by the spec-sanctioned pixel-count
equivalent of the enclosed area. -/
def contourArea (c : List (ℕ × ℕ)) : ℕ := c.length

/-- The repository's largest-contour loop:
`let maxArea = 0, largestContourIndex = 0; for i: if (area > maxArea) update`.
Returns `(maxArea, largestContourIndex)`. -/
def largestAux : List (List (ℕ × ℕ)) → ℕ → ℕ × ℕ → ℕ × ℕ
  | [], _, best => best
  | c :: rest, i, best =>
    largestAux rest (i + 1) (if contourArea c > best.1 then (contourArea c, i) else best)

/-- `(maxArea, largestContourIndex)` after the scan of all contours. -/
def largestLoop (cs : List (List (ℕ × ℕ))) : ℕ × ℕ := largestAux cs 0 (0, 0)

/-- Errors surfaced while analysing one image.  `decodeError` stands for the
exception the canvas collaborator raises when `img.src = imageBuffer` is fed
a malformed or unsupported payload (the spec's `DecodeError`); `cvAssert`
stands for the assertion the OpenCV collaborator raises when `drawContours`
is given an index outside a non-empty contour list (never reached through
the analysis entry points, retained for fidelity to the collaborator's
contract); `noValidContour` is the `"No valid contour found in image …"`
error thrown by the variants that guard on `maxArea === 0`. -/
inductive AnalysisError
  | decodeError
  | cvAssert
  | noValidContour
  deriving DecidableEq, Repr

/-- `cv.Mat.zeros(rows, cols, cv.CV_8UC1)`. -/
def zeroMask (r c : ℕ) : Mask :=
  (List.range r).map (fun _ => (List.range c).map (fun _ => false))

/-- `cv.drawContours(mask, contours, idx, Scalar(255), -1)` on a zero mask of
`r × c`.  The collaborator early-returns on an empty contour list — drawing
nothing, so the mask stays all-zero — and only otherwise asserts
`0 ≤ idx < contours.length`; with a valid index it fills the selected region
(our shapes are solid, so the filled region is the component itself). -/
def drawContoursFill (cs : List (List (ℕ × ℕ))) (idx r c : ℕ) :
    Except AnalysisError Mask :=
  if cs = [] then .ok (zeroMask r c)
  else if h : idx < cs.length then
    .ok ((List.range r).map (fun y => (List.range c).map (fun x => (cs.get ⟨idx, h⟩).contains (x, y))))
  else .error .cvAssert

/-! ## Moments: `cv.moments(mask)`; per the spec's data model, `m00` is the
on-pixel count and `m10`, `m01` the coordinate sums over on-pixels. -/

/-- Zeroth moment: number of on-pixels. -/
def m00 (m : Mask) : ℕ := (onList m).length

/-- First moment in `x`. -/
def m10 (m : Mask) : ℕ := ((onList m).map Prod.fst).sum

/-- First moment in `y`. -/
def m01 (m : Mask) : ℕ := ((onList m).map Prod.snd).sum

/-- Integer bounding box, as `cv.boundingRect`: `(x, y, width, height)`. -/
structure Rect where
  x : ℕ
  y : ℕ
  w : ℕ
  h : ℕ
  deriving DecidableEq, Repr

/-- `cv.boundingRect` of a region, modelled from its pixel set. -/
def boundingRect (c : List (ℕ × ℕ)) : Rect :=
  let x0 := (c.map Prod.fst).min?.getD 0
  let x1 := (c.map Prod.fst).max?.getD 0
  let y0 := (c.map Prod.snd).min?.getD 0
  let y1 := (c.map Prod.snd).max?.getD 0
  ⟨x0, y0, x1 + 1 - x0, y1 + 1 - y0⟩

/-- Bounding box of the contour selected by the largest-contour loop on the
binarized image (lines `boundingRect(contours.get(largestContourIndex))` of
the bounding-box variants). -/
def selectedBBox (g : Gray) : Rect :=
  let contours := findComps (onList (binarize g))
  boundingRect (contours.getD (largestLoop contours).2 [])

/-! ## Moment calculator: the explicit Ixx double loop of the source. -/

/-- The source's moment-of-inertia loop:
`for y, for x: if (mask.ucharPtr(y,x)[0] === 255) IxxMm4 += (y*scale - centroidYMm)^2 * pixelAreaMm2`
with `pixelAreaMm2 = scale * scale`. -/
def IxxLoop (m : Mask) (scale cYmm : ℚ) : ℚ :=
  (List.range (rowsOf m)).foldl (fun acc y =>
    (List.range (colsOf m)).foldl (fun acc2 x =>
      if onAt m y x then acc2 + ((y : ℚ) * scale - cYmm) ^ 2 * (scale * scale) else acc2)
      acc) 0

/-- `detectedHeight || realWorldHeightMm` — JavaScript `||`, under which both
`null` and `0` are falsy and fall through to the caller-supplied value. -/
def jsOr (detected : Option ℕ) (fallback : ℚ) : ℚ :=
  match detected with
  | none => fallback
  | some v => if v = 0 then fallback else (v : ℚ)

/-- The `LogAnalysisResult` interface of
`src/server/api/routers/image.ts` (nullable detected height). -/
structure LogAnalysisResult where
  filename : String
  area_mm2 : ℚ
  centroid_x_mm : ℚ
  centroid_y_mm : ℚ
  Ixx_mm4 : ℚ
  section_modulus_mm3 : ℚ
  detected_height_mm : Option ℕ
  deriving DecidableEq, Repr

/-- `analyzeLogSection` of `src/server/api/routers/image.ts`.
`detectedHeight` is the value the external OCR collaborator's parse
(`extractHeightFromImage`) returned for this image.  This variant derives
the scale from `gray.rows` (the full image height), has no zero-area
contour guard and no scale validity check; the only failure mode is the
collaborator's assertion inside `drawContours`. -/
def analyzeLogSection (g : Gray) (detectedHeight : Option ℕ)
    (realWorldHeightMm : ℚ) (filename : String) :
    Except AnalysisError LogAnalysisResult :=
  let heightToUse := jsOr detectedHeight realWorldHeightMm
  let heightPx : ℚ := (rowsOf g : ℚ)
  let scale := heightToUse / heightPx
  let pixelAreaMm2 := scale * scale
  let binary := binarize g
  let contours := findComps (onList binary)
  let largest := largestLoop contours
  (drawContoursFill contours largest.2 (rowsOf g) (colsOf g)).map (fun mask =>
    let M00 : ℚ := (m00 mask : ℚ)
    let areaMm2 := M00 * pixelAreaMm2
    let centroidX : ℚ := (m10 mask : ℚ) / M00
    let centroidY : ℚ := (m01 mask : ℚ) / M00
    let centroidXMm := centroidX * scale
    let centroidYMm := centroidY * scale
    let IxxMm4 := IxxLoop mask scale centroidYMm
    let maxY := (rowsOf mask : ℚ) * scale
    let minY : ℚ := 0
    let cMm := max (maxY - centroidYMm) (centroidYMm - minY)
    let sectionModulusMm3 := IxxMm4 / cMm
    { filename := filename
      area_mm2 := areaMm2
      centroid_x_mm := centroidXMm
      centroid_y_mm := centroidYMm
      Ixx_mm4 := IxxMm4
      section_modulus_mm3 := sectionModulusMm3
      detected_height_mm := detectedHeight })

/-- The `LogAnalysisResult` interface of the `part_001` variant (height is
the non-nullable value used for the computation; the base64
`processed_image_data` produced by the presentational annotator/encoder is
outside the numeric model). -/
structure LogAnalysisResultV2 where
  filename : String
  area_mm2 : ℚ
  centroid_x_mm : ℚ
  centroid_y_mm : ℚ
  Ixx_mm4 : ℚ
  section_modulus_mm3 : ℚ
  detected_height_mm : ℚ
  deriving DecidableEq, Repr

/-- `analyzeLogSection` of the `part_001` variant: guards on
`maxArea === 0` (throwing `"No valid contour found in image …"`), derives
the scale from the selected contour's bounding-box height and the
extreme-fiber distance from that bounding box. -/
def analyzeLogSectionV2 (g : Gray) (heightMm : ℚ) (filename : String) :
    Except AnalysisError LogAnalysisResultV2 :=
  let binary := binarize g
  let contours := findComps (onList binary)
  let largest := largestLoop contours
  if largest.1 = 0 then .error .noValidContour
  else
    (drawContoursFill contours largest.2 (rowsOf g) (colsOf g)).map (fun mask =>
      let boundingRect := boundingRect (contours.getD largest.2 [])
      let shapeHeightPx : ℚ := (boundingRect.h : ℚ)
      let scale := heightMm / shapeHeightPx
      let pixelAreaMm2 := scale * scale
      let M00 : ℚ := (m00 mask : ℚ)
      let areaMm2 := M00 * pixelAreaMm2
      let centroidX : ℚ := (m10 mask : ℚ) / M00
      let centroidY : ℚ := (m01 mask : ℚ) / M00
      let centroidXMm := centroidX * scale
      let centroidYMm := centroidY * scale
      let IxxMm4 := IxxLoop mask scale centroidYMm
      let maxY := ((boundingRect.y + boundingRect.h : ℕ) : ℚ) * scale
      let minY := (boundingRect.y : ℚ) * scale
      let cMm := max (maxY - centroidYMm) (centroidYMm - minY)
      let sectionModulusMm3 := IxxMm4 / cMm
      { filename := filename
        area_mm2 := areaMm2
        centroid_x_mm := centroidXMm
        centroid_y_mm := centroidYMm
        Ixx_mm4 := IxxMm4
        section_modulus_mm3 := sectionModulusMm3
        detected_height_mm := heightMm })

/-! ## Height-text parsing: the regex step of `extractHeightFromImage`

The OCR collaborator (Tesseract) supplies free-form text; the repository
then applies `/(\d+)\s*mm/i` with `text.match` and `parseInt(match[1], 10)`.
The regex is modelled exactly: the leftmost position admitting a non-empty
maximal digit run, followed by a whitespace run, followed by `mm`
case-insensitively, wins, and the digit run is the captured group (greedy,
and shortening the digit run can never enable the `mm` literal, so no
useful backtracking exists). -/

/-- JavaScript `\s` on the character classes the repository's inputs use. -/
def jsSpace (c : Char) : Bool := decide (c = ' ' ∨ c = '\t' ∨ c = '\n' ∨ c = '\r')

/-- Does the text start with `mm`, case-insensitively? -/
def isMm : List Char → Bool
  | c1 :: c2 :: _ => (c1 == 'm' || c1 == 'M') && (c2 == 'm' || c2 == 'M')
  | _ => false

/-- Try `/(\d+)\s*mm/i` anchored at the head; return the captured digits. -/
def matchAt (cs : List Char) : Option (List Char) :=
  let ds := cs.takeWhile Char.isDigit
  if ds.isEmpty then none
  else if isMm ((cs.drop ds.length).dropWhile jsSpace) then some ds else none

/-- `text.match(/(\d+)\s*mm/i)`: first match in the text, captured digits. -/
def firstMatchDigits : List Char → Option (List Char)
  | [] => none
  | c :: rest =>
    match matchAt (c :: rest) with
    | some ds => some ds
    | none => firstMatchDigits rest

/-- `parseInt(digits, 10)` on a non-empty digit string. -/
def parseIntDecimal (ds : List Char) : ℕ :=
  ds.foldl (fun n c => 10 * n + (c.toNat - '0'.toNat)) 0

/-- The parsing step of `extractHeightFromImage` in
`src/server/api/routers/image.ts`: return the first captured integer, with
no range restriction (`if (match && match[1]) return parseInt(match[1], 10)`). -/
def extractHeight (text : String) : Option ℕ :=
  (firstMatchDigits text.data).map parseIntDecimal

/-- The parsing step of `extractHeightFromImage` in the `part_002` variant:
the captured integer is accepted only when `height > 0 && height < 1000`,
otherwise `null`. -/
def extractHeightV2 (text : String) : Option ℕ :=
  match firstMatchDigits text.data with
  | some ds =>
    let height := parseIntDecimal ds
    if height > 0 ∧ height < 1000 then some height else none
  | none => none

/-- One element of the `analyze` mutation's `images` array, together with
the OCR value the collaborator detected for it: filename, payload, detected
height.  The payload is the decoded raster, or `none` for a buffer the
canvas collaborator cannot decode (malformed or unsupported image data). -/
abbrev BatchItem := String × Option Gray × Option ℕ

/-- `const img = new Image(); img.src = imageBuffer` (with the subsequent
canvas draw): the decode step of `analyzeLogSection`, performed by the
external canvas collaborator, which throws on a malformed payload. -/
def decodeImage : Option Gray → Except AnalysisError Gray
  | some g => .ok g
  | none => .error .decodeError

/-- One iteration of the mutation's loop body: decode the image buffer
(inside `analyzeLogSection`, before any vision work) and run the analysis. -/
def analyzeItem (it : BatchItem) (logHeightMm : ℚ) :
    Except AnalysisError LogAnalysisResult :=
  match decodeImage it.2.1 with
  | .error e => .error e
  | .ok g => analyzeLogSection g it.2.2 logHeightMm it.1

/-- The `analyze` mutation's loop over `input.images` in
`src/server/api/routers/image.ts`: awaits each image in order and pushes its
result; there is no per-image catch, so the first rejected analysis
propagates out of the mutation and no result list is returned. -/
def runBatch : List BatchItem → ℚ → Except AnalysisError (List LogAnalysisResult)
  | [], _ => .ok []
  | it :: rest, logHeightMm =>
    match analyzeItem it logHeightMm with
    | .error e => .error e
    | .ok r =>
      match runBatch rest logHeightMm with
      | .error e => .error e
      | .ok rs => .ok (r :: rs)

/-- Is a fallible computation's outcome a success? -/
def okB {ε α : Type} : Except ε α → Bool
  | .ok _ => true
  | .error _ => false

/-! ## Concrete test rasters

`img0`: a dark 2×2 square (intensity 10) centred on a light 4×4 background
(intensity 200) — a solid shape whose bounding box (height 2) differs from
the full image height (4).  `imgEmpty`: a uniform light raster with no
foreground.  `imgLightShape`: the same square geometry but light-on-dark. -/

def img0 : Gray :=
  [[200, 200, 200, 200],
   [200,  10,  10, 200],
   [200,  10,  10, 200],
   [200, 200, 200, 200]]

def imgEmpty : Gray :=
  [[200, 200, 200, 200],
   [200, 200, 200, 200],
   [200, 200, 200, 200],
   [200, 200, 200, 200]]

def imgLightShape : Gray :=
  [[10,  10,  10, 10],
   [10, 200, 200, 10],
   [10, 200, 200, 10],
   [10,  10,  10, 10]]

/-- The record `analyzeLogSection` (router variant) computes for `img0`
with caller-supplied height 100 mm and no OCR detection: the scale is
`100 / 4 = 25` mm/px (full image height), so the four on-pixels give area
`4 * 25^2`, centroid `(1.5 * 25, 1.5 * 25)`, `Ixx = 4 * 12.5^2 * 25^2`, and
the extreme fiber is measured from the full-image extent `[0, 4] * 25`. -/
def img0Result (fname : String) : LogAnalysisResult :=
  { filename := fname
    area_mm2 := 2500
    centroid_x_mm := 75 / 2
    centroid_y_mm := 75 / 2
    Ixx_mm4 := 390625
    section_modulus_mm3 := 6250
    detected_height_mm := none }

/-! ## Theorems

The Batteries rational operations are `@[irreducible]`; they are unsealed so
that concrete pipeline runs can be evaluated inside proofs by kernel
reduction. -/

unseal Rat.mul Rat.add Rat.sub Rat.inv

/-- Folding `acc + f i` over `List.range n` is `a` plus the finite sum. -/
theorem foldl_add_finset_sum (f : ℕ → ℚ) (a : ℚ) (n : ℕ) :
    (List.range n).foldl (fun acc i => acc + f i) a = a + ∑ i ∈ Finset.range n, f i := by
  induction n generalizing a with
  | zero => simp
  | succ k ih =>
    rw [List.range_succ, List.foldl_append, ih, Finset.sum_range_succ]
    simp [add_assoc]

/-- Folding a guarded accumulation over `List.range n` is `a` plus the sum
of the guarded terms. -/
theorem foldl_ite_add_finset_sum (P : ℕ → Bool) (f : ℕ → ℚ) (a : ℚ) (n : ℕ) :
    (List.range n).foldl (fun acc i => if P i then acc + f i else acc) a =
      a + ∑ i ∈ Finset.range n, if P i then f i else 0 := by
  have h : (fun (acc : ℚ) i => if P i then acc + f i else acc) =
      fun (acc : ℚ) i => acc + if P i then f i else 0 := by
    funext acc i
    by_cases hP : P i <;> simp [hP]
  rw [h, foldl_add_finset_sum]

/-- C3: for every mask with at least one on-pixel and every positive scale,
the source's `IxxMm4` accumulation loop, run with the already-computed
millimetre centroid `m01/m00 * scale`, equals the discrete second moment of
area: the sum over all on-pixels of `(y_px * scale - centroid_y_mm)^2 * scale^2`. -/
theorem Ixx_loop_is_second_moment_sum (m : Mask) (s : ℚ)
    (hm : 0 < m00 m) (hs : 0 < s) :
    IxxLoop m s ((m01 m : ℚ) / (m00 m : ℚ) * s) =
      ∑ y ∈ Finset.range (rowsOf m), ∑ x ∈ Finset.range (colsOf m),
        if onAt m y x then ((y : ℚ) * s - (m01 m : ℚ) / (m00 m : ℚ) * s) ^ 2 * s ^ 2 else 0 := by
  unfold IxxLoop
  have houter : (fun (acc : ℚ) y => (List.range (colsOf m)).foldl
      (fun acc2 x => if onAt m y x then
        acc2 + ((y : ℚ) * s - (m01 m : ℚ) / (m00 m : ℚ) * s) ^ 2 * (s * s) else acc2) acc) =
      fun (acc : ℚ) y => acc + ∑ x ∈ Finset.range (colsOf m),
        if onAt m y x then ((y : ℚ) * s - (m01 m : ℚ) / (m00 m : ℚ) * s) ^ 2 * (s * s) else 0 := by
    funext acc y
    rw [foldl_ite_add_finset_sum]
  rw [houter, foldl_add_finset_sum, zero_add]
  simp [pow_two]

/-- Witness for C3 at a concrete mask and scale. -/
theorem Ixx_loop_is_second_moment_sum_witness :
    0 < m00 [[false, true], [true, true]] ∧ (0 : ℚ) < 2 ∧
    IxxLoop [[false, true], [true, true]] 2
        ((m01 [[false, true], [true, true]] : ℚ) / (m00 [[false, true], [true, true]] : ℚ) * 2) =
      ∑ y ∈ Finset.range (rowsOf ([[false, true], [true, true]] : Mask)),
        ∑ x ∈ Finset.range (colsOf ([[false, true], [true, true]] : Mask)),
          if onAt [[false, true], [true, true]] y x then
            ((y : ℚ) * 2 - (m01 [[false, true], [true, true]] : ℚ) /
              (m00 [[false, true], [true, true]] : ℚ) * 2) ^ 2 * 2 ^ 2 else 0 :=
  ⟨by decide, by norm_num,
    Ixx_loop_is_second_moment_sum [[false, true], [true, true]] 2 (by decide) (by norm_num)⟩

/-- Every pixel produced by `onRowAux` carries the row index it was given. -/
theorem onRowAux_snd (y : ℕ) (row : List Bool) :
    ∀ x0 p, p ∈ onRowAux y x0 row → p.2 = y := by
  induction row with
  | nil => intro x0 p hp; simp [onRowAux] at hp
  | cons b bs ih =>
    intro x0 p hp
    simp only [onRowAux, List.mem_append] at hp
    rcases hp with h | h
    · by_cases hb : b
      · simp [hb] at h; simp [h]
      · simp [hb] at h
    · exact ih (x0 + 1) p h

/-- Every pixel of `onListAux y0 rs` lies in a row below `y0 + rs.length`. -/
theorem onListAux_snd_lt (rs : Mask) :
    ∀ y0 p, p ∈ onListAux y0 rs → p.2 < y0 + rs.length := by
  induction rs with
  | nil => intro y0 p hp; simp [onListAux] at hp
  | cons r rest ih =>
    intro y0 p hp
    simp only [onListAux, List.mem_append] at hp
    rcases hp with h | h
    · have := onRowAux_snd y0 r 0 p h
      simp [this]
    · have := ih (y0 + 1) p h
      simp only [List.length_cons]
      omega

/-- Every on-pixel of a mask lies inside its rows. -/
theorem onList_snd_lt (m : Mask) (p : ℕ × ℕ) (hp : p ∈ onList m) : p.2 < rowsOf m := by
  have := onListAux_snd_lt m 0 p hp
  simpa [rowsOf] using this

/-- A sum of components bounded by `R` is at most `length * R`. -/
theorem sum_snd_le (l : List (ℕ × ℕ)) (R : ℕ) (h : ∀ p ∈ l, p.2 < R) :
    (l.map Prod.snd).sum ≤ l.length * R := by
  induction l with
  | nil => simp
  | cons a t ih =>
    have ha := h a (List.mem_cons_self a t)
    have ht := ih (fun p hp => h p (List.mem_cons_of_mem a hp))
    simp only [List.map_cons, List.sum_cons, List.length_cons]
    calc a.2 + (t.map Prod.snd).sum ≤ R + t.length * R := by omega
    _ = (t.length + 1) * R := by ring

/-- The first `y`-moment is bounded by the pixel count times the row count. -/
theorem m01_le (m : Mask) : m01 m ≤ m00 m * rowsOf m := by
  have := sum_snd_le (onList m) (rowsOf m) (fun p hp => onList_snd_lt m p hp)
  simpa [m01, m00] using this

/-- C10: for every mask with at least one on-pixel, positive pixel height
and positive scale, the source's extreme-fiber distance
`max(mask.rows * scale - centroid_y_mm, centroid_y_mm - 0)` is at least half
the image height in millimetres, hence strictly positive, so the
section-modulus division never divides by zero. -/
theorem extreme_fiber_distance_positive (m : Mask) (s : ℚ)
    (hm : 0 < m00 m) (hr : 0 < rowsOf m) (hs : 0 < s) :
    (rowsOf m : ℚ) * s / 2 ≤
      max ((rowsOf m : ℚ) * s - (m01 m : ℚ) / (m00 m : ℚ) * s)
        ((m01 m : ℚ) / (m00 m : ℚ) * s - 0) ∧
    0 < max ((rowsOf m : ℚ) * s - (m01 m : ℚ) / (m00 m : ℚ) * s)
        ((m01 m : ℚ) / (m00 m : ℚ) * s - 0) := by
  have hm00Q : (0 : ℚ) < (m00 m : ℚ) := by exact_mod_cast hm
  have hcy0 : (0 : ℚ) ≤ (m01 m : ℚ) / (m00 m : ℚ) * s := by positivity
  have h01 : (m01 m : ℚ) ≤ (m00 m : ℚ) * (rowsOf m : ℚ) := by exact_mod_cast m01_le m
  have hcyR : (m01 m : ℚ) / (m00 m : ℚ) * s ≤ (rowsOf m : ℚ) * s := by
    rw [div_mul_eq_mul_div, div_le_iff₀ hm00Q]
    nlinarith
  have hhalf : (0 : ℚ) < (rowsOf m : ℚ) * s / 2 := by
    have : (0 : ℚ) < (rowsOf m : ℚ) := by exact_mod_cast hr
    positivity
  have hmax : (rowsOf m : ℚ) * s / 2 ≤
      max ((rowsOf m : ℚ) * s - (m01 m : ℚ) / (m00 m : ℚ) * s)
        ((m01 m : ℚ) / (m00 m : ℚ) * s - 0) := by
    rcases le_or_lt ((m01 m : ℚ) / (m00 m : ℚ) * s) ((rowsOf m : ℚ) * s / 2) with h | h
    · exact le_max_of_le_left (by linarith)
    · exact le_max_of_le_right (by linarith)
  exact ⟨hmax, lt_of_lt_of_le hhalf hmax⟩

/-- Witness for C10 at a concrete mask and scale. -/
theorem extreme_fiber_distance_positive_witness :
    0 < m00 [[false], [true]] ∧ 0 < rowsOf ([[false], [true]] : Mask) ∧ (0 : ℚ) < 3 ∧
    ((rowsOf ([[false], [true]] : Mask) : ℚ) * 3 / 2 ≤
        max ((rowsOf ([[false], [true]] : Mask) : ℚ) * 3 -
              (m01 [[false], [true]] : ℚ) / (m00 [[false], [true]] : ℚ) * 3)
          ((m01 [[false], [true]] : ℚ) / (m00 [[false], [true]] : ℚ) * 3 - 0) ∧
      0 < max ((rowsOf ([[false], [true]] : Mask) : ℚ) * 3 -
              (m01 [[false], [true]] : ℚ) / (m00 [[false], [true]] : ℚ) * 3)
          ((m01 [[false], [true]] : ℚ) / (m00 [[false], [true]] : ℚ) * 3 - 0)) :=
  ⟨by decide, by decide, by norm_num,
    extreme_fiber_distance_positive [[false], [true]] 3 (by decide) (by decide) (by norm_num)⟩

/-- C9: the calibration height actually used is the detected height whenever
detection returned a non-null, non-zero value — the caller-supplied height
then has no influence on the result — while a missing detection or a
detected 0 silently falls back to the caller-supplied value. -/
theorem calibration_height_resolution (g : Gray) (fname : String) (p p' : ℚ)
    (v : ℕ) (hv : v ≠ 0) :
    jsOr (some v) p = (v : ℚ) ∧ jsOr (some 0) p = p ∧ jsOr none p = p ∧
    analyzeLogSection g (some v) p fname = analyzeLogSection g (some v) p' fname := by
  refine ⟨by simp [jsOr, hv], by simp [jsOr], by simp [jsOr], ?_⟩
  unfold analyzeLogSection
  simp [jsOr, hv]

/-- Witness for C9 at a concrete image, detection and caller heights. -/
theorem calibration_height_resolution_witness :
    342 ≠ 0 ∧ (jsOr (some 342) 7 = (342 : ℚ) ∧ jsOr (some 0) 7 = 7 ∧ jsOr none 7 = 7 ∧
      analyzeLogSection img0 (some 342) 7 "w" = analyzeLogSection img0 (some 342) 9 "w") :=
  ⟨by decide, calibration_height_resolution img0 "w" 7 9 342 (by decide)⟩

/-- Indexing through `List.map` below the length, in `getD` form. -/
theorem getD_map_of_lt {α β : Type} (f : α → β) (l : List α) (y : ℕ)
    (hy : y < l.length) (d : β) (d' : α) :
    (l.map f).getD y d = f (l.getD y d') := by
  rw [List.getD_eq_getElem l d' hy, List.getD_eq_getElem _ d (by simpa using hy)]
  simp

/-- The two pointwise passes of the binarizer fuse into one map. -/
theorem binarize_eq_map (g : Gray) :
    binarize g = g.map (fun row => row.map (fun p => !decide (otsu g < p))) := by
  simp [binarize, bitwiseNot, thresholdOtsu, List.map_map]

/-- C8 (amended): the binarizer marks exactly the dark pixels as on — a
pixel inside the raster is on iff its intensity is at most the Otsu
threshold (Otsu split followed by an unconditional inversion); polarity is
fixed, not normalized to the shape. -/
theorem binarize_marks_dark_pixels (g : Gray) (y x : ℕ)
    (hy : y < rowsOf g) (hx : x < (g.getD y []).length) :
    (onAt (binarize g) y x = true) ↔ pxAt g y x ≤ otsu g := by
  rw [onAt, pxAt, binarize_eq_map]
  rw [getD_map_of_lt _ g y (by simpa [rowsOf] using hy) [] []]
  rw [getD_map_of_lt _ (g.getD y []) x hx false 0]
  simp [Nat.not_lt]

/-- C8 counterexample: for the light-shape-on-dark-background raster the
shape pixel `(1,1)` is binarized to off, while in the intensity-inverted
(dark-shape-on-light) raster it is binarized to on — the two polarities do
not both mark shape pixels as on. -/
theorem binarize_polarity_counterexample :
    onAt (binarize imgLightShape) 1 1 = false ∧
    onAt (binarize (invertGray imgLightShape)) 1 1 = true := by decide

/-- Witness for the amended C8 at a concrete raster and pixel. -/
theorem binarize_marks_dark_pixels_witness :
    1 < rowsOf img0 ∧ 1 < (img0.getD 1 []).length ∧
    ((onAt (binarize img0) 1 1 = true) ↔ pxAt img0 1 1 ≤ otsu img0) :=
  ⟨by decide, by decide, binarize_marks_dark_pixels img0 1 1 (by decide) (by decide)⟩

/-- The largest-contour scan only ever returns the initial index or an index
of a scanned element. -/
theorem largestAux_snd_lt (cs : List (List (ℕ × ℕ))) :
    ∀ (i : ℕ) (best : ℕ × ℕ) (n : ℕ), best.2 < n → i + cs.length ≤ n →
      (largestAux cs i best).2 < n := by
  induction cs with
  | nil => intro i best n hb _; simpa [largestAux] using hb
  | cons c rest ih =>
    intro i best n hb hi
    simp only [largestAux]
    apply ih (i + 1) _ n
    · by_cases hc : contourArea c > best.1
      · simp only [if_pos hc]
        simp only [List.length_cons] at hi
        omega
      · simpa [if_neg hc] using hb
    · simp only [List.length_cons] at hi
      omega

/-- On a non-empty contour list, the selected index is in range. -/
theorem largestLoop_snd_lt (cs : List (List (ℕ × ℕ))) (hc : cs ≠ []) :
    (largestLoop cs).2 < cs.length := by
  have hlen : 0 < cs.length := List.length_pos.mpr hc
  exact largestAux_snd_lt cs 0 (0, 0) cs.length hlen (by omega)

/-- C7 (amended): the analysis performs no scale validation at all — for any
caller-supplied calibration height (including zero and negative values,
which make the scale non-positive) and any detected value, the analysis of
an image with at least one foreground region succeeds; no
`InvalidCalibration` failure path exists in the code. -/
theorem analysis_never_validates_scale (g : Gray) (det : Option ℕ) (hMm : ℚ)
    (fname : String) (hc : findComps (onList (binarize g)) ≠ []) :
    okB (analyzeLogSection g det hMm fname) = true := by
  unfold analyzeLogSection
  have hidx := largestLoop_snd_lt (findComps (onList (binarize g))) hc
  simp [drawContoursFill, hc, hidx, okB, Except.map]

/-- Witness for the amended C7: a negative caller height (scale `-25`)
still yields a successful analysis of `img0`. -/
theorem analysis_never_validates_scale_witness :
    findComps (onList (binarize img0)) ≠ [] ∧
    okB (analyzeLogSection img0 none (-100) "neg2") = true :=
  ⟨by decide, analysis_never_validates_scale img0 none (-100) "neg2" (by decide)⟩

/-- C7 counterexample: for `img0` with caller height `-100` the resolved
scale `-100 / 4` is negative, yet the analysis does not fail with any
calibration error — it returns a fully populated result (with a negative
centroid and section modulus). -/
theorem no_invalid_calibration_counterexample :
    jsOr none (-100) / (rowsOf img0 : ℚ) < 0 ∧
    analyzeLogSection img0 none (-100) "neg" =
      .ok { filename := "neg"
            area_mm2 := 2500
            centroid_x_mm := -75 / 2
            centroid_y_mm := -75 / 2
            Ixx_mm4 := 390625
            section_modulus_mm3 := -31250 / 3
            detected_height_mm := none } := by decide

/-- C5 (amended): per-image errors are not caught at the mutation boundary —
if every image before some failing image (e.g. one whose payload the canvas
collaborator cannot decode) analyses successfully, the whole batch returns
that single error: the earlier successful results are discarded, the images
after the failing one are not reported, and no separate failure list
exists. -/
theorem batch_first_error_aborts (pre post : List BatchItem) (b : BatchItem)
    (hMm : ℚ) (rs : List LogAnalysisResult) (e : AnalysisError)
    (hpre : runBatch pre hMm = .ok rs)
    (hb : analyzeItem b hMm = .error e) :
    runBatch (pre ++ b :: post) hMm = .error e := by
  induction pre generalizing rs with
  | nil =>
    simp only [List.nil_append, runBatch]
    rw [hb]
  | cons a t ih =>
    simp only [List.cons_append, runBatch] at hpre ⊢
    cases h1 : analyzeItem a hMm with
    | error e1 => rw [h1] at hpre; exact absurd hpre (by simp)
    | ok r1 =>
      rw [h1] at hpre
      cases h2 : runBatch t hMm with
      | error e2 => rw [h2] at hpre; exact absurd hpre (by simp)
      | ok rs2 =>
        have h3 : runBatch (t.append (b :: post)) hMm = Except.error e := ih rs2 h2
        rw [h3]

/-- Witness for the amended C5: a concrete 3-image batch whose middle
payload is undecodable; the batch returns the middle image's decode error
alone. -/
theorem batch_first_error_aborts_witness :
    runBatch [("x2", some img0, none)] 100 = .ok [img0Result "x2"] ∧
    analyzeItem ("y2", none, none) 100 = .error .decodeError ∧
    runBatch ([("x2", some img0, none)] ++ ("y2", none, none) :: [("z2", some img0, none)]) 100 =
      .error .decodeError :=
  ⟨by decide, by decide,
    batch_first_error_aborts [("x2", some img0, none)] [("z2", some img0, none)]
      ("y2", none, none) 100 [img0Result "x2"] .decodeError (by decide) (by decide)⟩

/-- C5 counterexample: a batch of three images whose second payload fails to
decode (the spec's `DecodeError`, "fatal to that image only") yields a
single batch-level error — not two successful results for images 1 and 3
plus one tagged failure. -/
theorem batch_isolation_counterexample :
    runBatch [("x", some img0, none), ("y", none, none), ("z", some img0, none)] 100 =
      .error .decodeError := by decide

/-- C1: evaluation at the failing input.  For `img0` (image height 4 px,
selected-contour bounding-box height 2 px) with calibration height 100 mm,
the router variant computes with scale `100 / 4` (full image height): its
area is `4 * (100/4)^2 = 2500`, not the bounding-box-scaled
`4 * (100/2)^2 = 10000` that the claim requires; the `part_001` variant does
compute with the bounding-box scale. -/
theorem scale_divides_by_image_height_eval :
    analyzeLogSection img0 none 100 "log1" = .ok (img0Result "log1") ∧
    selectedBBox img0 = ⟨1, 1, 2, 2⟩ ∧
    rowsOf img0 = 4 ∧
    (img0Result "log1").area_mm2 = (4 : ℚ) * (100 / (rowsOf img0 : ℚ)) ^ 2 ∧
    (img0Result "log1").area_mm2 ≠ (4 : ℚ) * (100 / ((selectedBBox img0).h : ℚ)) ^ 2 ∧
    analyzeLogSectionV2 img0 100 "log1" =
      .ok { filename := "log1"
            area_mm2 := 10000
            centroid_x_mm := 75
            centroid_y_mm := 75
            Ixx_mm4 := 6250000
            section_modulus_mm3 := 250000 / 3
            detected_height_mm := 100 } ∧
    (10000 : ℚ) = 4 * (100 / ((selectedBBox img0).h : ℚ)) ^ 2 := by decide

/-- C2: evaluation at the failing input.  On an all-background raster the
router variant has no zero-area guard: the collaborator's `drawContours`
early-returns on the empty contour list, the mask stays all-zero,
`moments.m00 = 0`, and the `m10/m00`, `m01/m00` centroid computations divide
by zero — NaN in the JavaScript engine, 0 under the rational model's
division-by-zero convention — so the router returns a "successful"
degenerate result instead of failing with a no-region error; the `part_001`
variant throws its explicit `"No valid contour found"` error. -/
theorem empty_image_degenerate_eval :
    findComps (onList (binarize imgEmpty)) = [] ∧
    m00 (zeroMask (rowsOf imgEmpty) (colsOf imgEmpty)) = 0 ∧
    analyzeLogSection imgEmpty none 100 "e" =
      .ok { filename := "e"
            area_mm2 := 0
            centroid_x_mm := 0
            centroid_y_mm := 0
            Ixx_mm4 := 0
            section_modulus_mm3 := 0
            detected_height_mm := none } ∧
    analyzeLogSectionV2 imgEmpty 100 "e" = .error .noValidContour := by decide

/-- C4: evaluation at the failing input.  The router variant measures the
extreme fiber from the full-image extent `[0, mask.rows * scale]`:
its modulus `6250 = 390625 / 62.5` divides by
`max(4 * 25 - 37.5, 37.5 - 0) = 62.5`, whereas the claim's bounding-box
extremes (at the same scale and centroid) give
`max(3 * 25 - 37.5, 37.5 - 1 * 25) = 37.5` and a different modulus. -/
theorem section_modulus_full_extent_eval :
    analyzeLogSection img0 none 100 "log4" = .ok (img0Result "log4") ∧
    (img0Result "log4").section_modulus_mm3 =
      (img0Result "log4").Ixx_mm4 /
        (max ((rowsOf img0 : ℚ) * (100 / 4) - (img0Result "log4").centroid_y_mm)
          ((img0Result "log4").centroid_y_mm - 0)) ∧
    selectedBBox img0 = ⟨1, 1, 2, 2⟩ ∧
    max ((((selectedBBox img0).y + (selectedBBox img0).h : ℕ) : ℚ) * (100 / 4) -
          (img0Result "log4").centroid_y_mm)
        ((img0Result "log4").centroid_y_mm - ((selectedBBox img0).y : ℚ) * (100 / 4)) =
      75 / 2 ∧
    (img0Result "log4").Ixx_mm4 / (75 / 2 : ℚ) ≠ (img0Result "log4").section_modulus_mm3 := by
  decide

/-- C6: evaluation at the failing input.  The router variant's
`extractHeightFromImage` parse returns the first captured integer with no
range restriction: `"34200mm"` yields 34200 (and `"0mm"` yields 0) instead
of no detection; the `part_002` variant applies the `0 < h < 1000` guard
the claim describes, and both agree on the in-range `"height: 342mm"`. -/
theorem height_parse_range_eval :
    extractHeight "34200mm" = some 34200 ∧
    extractHeightV2 "34200mm" = none ∧
    extractHeight "height: 342mm" = some 342 ∧
    extractHeightV2 "height: 342mm" = some 342 ∧
    extractHeight "0mm" = some 0 ∧
    extractHeightV2 "0mm" = none ∧
    extractHeight "height three forty two" = none := by decide

end LogSection
